import Mathlib

/-!
Shallow embedding of src/dataset_browser.py: the heuristic fallback path of
midi_notes_to_chord_name, plus analyze_progression, browse_dataset and
generate_similar_progression.  Python strings are Lean String values, Python
integers are Lean naturals (pitches are non-negative MIDI numbers) or
integers where Python subtraction may go negative, and Python float
arithmetic is modelled as exact rational arithmetic.
-/

/-- Python endswith on strings: suffix test on the character lists. -/
def py_endswith (s suffix : String) : Bool := decide (suffix.data <:+ s.data)

/-- Python substring membership test needle in hay. -/
def py_contains (needle hay : String) : Bool := decide (needle.data <:+: hay.data)

/-- Python s[:-1]: drop the final character. -/
def py_drop_last (s : String) : String := String.mk s.data.dropLast

/-- Python str.lower, character by character. -/
def py_lower (s : String) : String := s.toLower

/-- Python sorted on a list of naturals. -/
def py_sorted (l : List ℕ) : List ℕ := List.insertionSort (· ≤ ·) l

/-- Python sorted(list(set(l))): duplicates removed, then sorted ascending. -/
def py_sorted_set (l : List ℕ) : List ℕ := py_sorted l.dedup

/-- The fixed pitch-class name table of midi_notes_to_chord_name (line 54). -/
def note_names : List String :=
  ["C", "C#", "D", "D#", "E", "F"] ++ ["F#", "G", "G#", "A", "A#", "B"]

/-- Pitch-class name of a pitch: note_names[p % 12] (lines 57-58). -/
def root_name_of (p : ℕ) : String := note_names.getD (p % 12) ""

/-- Quality block of midi_notes_to_chord_name (lines 88-104). -/
def quality_name (intervals : List ℕ) : String :=
  if 3 ∈ intervals ∧ 6 ∈ intervals then "dim"
  else if 3 ∈ intervals then "m"
  else if 4 ∈ intervals ∧ 8 ∈ intervals then "aug"
  else if 4 ∈ intervals ∧ 7 ∈ intervals then ""
  else if 4 ∈ intervals ∧ 6 ∈ intervals then "7"
  else if 4 ∉ intervals ∧ 3 ∉ intervals then
    if 5 ∈ intervals then "sus4"
    else if 2 ∈ intervals then "sus2"
    else ""
  else ""

/-- Seventh block of midi_notes_to_chord_name (lines 106-113).  Both arms of
the inner test append maj7, exactly as in the source. -/
def add_seventh (intervals : List ℕ) (chord_name : String) : String :=
  if 11 ∈ intervals then
    if py_contains "m" chord_name then chord_name ++ "maj7"
    else chord_name ++ "maj7"
  else if 10 ∈ intervals then chord_name ++ "7"
  else chord_name

/-- Lines 126-127: strip a trailing bare 7, but never a trailing maj7. -/
def strip_bare_seven (chord_name : String) : String :=
  if py_endswith chord_name "7" && ! py_endswith chord_name "maj7" then
    py_drop_last chord_name
  else chord_name

/-- Lines 116-122: the extension list holds at most one of 13, 11, 9. -/
def pick_extensions (intervals : List ℕ) : List String :=
  if 9 ∈ intervals then ["13"]
  else if 5 ∈ intervals then ["11"]
  else if 2 ∈ intervals then ["9"]
  else []

/-- Lines 124-128: append the picked extension, stripping a bare trailing 7. -/
def add_extension (intervals : List ℕ) (chord_name : String) : String :=
  let extensions := pick_extensions intervals
  if extensions = [] then chord_name
  else strip_bare_seven chord_name ++ extensions.headD ""

/-- Branch of midi_notes_to_chord_name for three or more notes
(lines 69-134), taking the sorted note list split as root :: rest. -/
def classify_big (root : ℕ) (rest : List ℕ) : String :=
  let root_name := root_name_of root
  let intervals := py_sorted_set (rest.map (fun note => (note - root) % 12))
  let chord_name := root_name ++ quality_name intervals
  let chord_name := add_seventh intervals chord_name
  let chord_name := add_extension intervals chord_name
  if 5 < intervals.length then
    chord_name ++ "(" ++ toString (rest.length + 1) ++ ")"
  else chord_name

/-- midi_notes_to_chord_name (lines 31-136), heuristic fallback path: the
music21 branch is an optional third-party upgrade that is out of scope. -/
def midi_notes_to_chord_name (notes_tuple : List ℕ) : String :=
  if notes_tuple = [] then "Rest"
  else
    let notes := py_sorted notes_tuple
    let root_name := root_name_of (notes.headD 0)
    if notes.length = 1 then root_name
    else if notes.length = 2 then
      let interval := (notes.getD 1 0 - notes.getD 0 0) % 12
      if interval = 7 then root_name ++ "5"
      else root_name ++ "2"
    else classify_big (notes.headD 0) notes.tail

/-- The interval set computed at line 71 from the sorted input. -/
def chord_intervals (notes_tuple : List ℕ) : List ℕ :=
  let notes := py_sorted notes_tuple
  py_sorted_set (notes.tail.map (fun note => (note - notes.headD 0) % 12))

/-- Pitch-class name of the lowest note of the input. -/
def chord_root_name (notes_tuple : List ℕ) : String :=
  root_name_of ((py_sorted notes_tuple).headD 0)

/-- The decorated name built by the quality, seventh and extension blocks
(lines 85-128), before the overflow guard of lines 130-132. -/
def chord_built_name (notes_tuple : List ℕ) : String :=
  add_extension (chord_intervals notes_tuple)
    (add_seventh (chord_intervals notes_tuple)
      (chord_root_name notes_tuple ++ quality_name (chord_intervals notes_tuple)))

/-- convert_progression_to_chords (lines 165-171). -/
def convert_progression_to_chords (progression : List (List ℕ)) : List String :=
  progression.map midi_notes_to_chord_name

/-- Python round-half-to-even of a rational to an integer. -/
def round_half_even (q : ℚ) : ℤ :=
  if q - ⌊q⌋ < 1 / 2 then ⌊q⌋
  else if 1 / 2 < q - ⌊q⌋ then ⌊q⌋ + 1
  else if ⌊q⌋ % 2 = 0 then ⌊q⌋ else ⌊q⌋ + 1

/-- Python round(x, 1), modelled on exact rationals. -/
def py_round1 (q : ℚ) : ℚ := (round_half_even (q * 10) : ℚ) / 10

/-- Python int() truncation toward zero on a rational. -/
def py_int (q : ℚ) : ℤ := if 0 ≤ q then ⌊q⌋ else ⌈q⌉

/-- Pattern block of analyze_progression (lines 194-207). -/
def detect_patterns (chord_names : List String) : List String :=
  if 4 ≤ chord_names.length then
    (if chord_names.headD "" = chord_names.getLastD "" then
        ["Returns to root"] else []) ++
    (if py_contains "C F G" (String.intercalate " " (chord_names.take 4)) then
        ["Contains I-IV-V pattern"] else []) ++
    (if chord_names.any (fun name => py_endswith name "m") then
        ["Contains minor chords"] else [])
  else []

structure AnalysisResult where
  chord_count : ℕ
  unique_chords : ℕ
  chord_names : List String
  complexity_score : ℤ
  average_notes_per_chord : ℚ
  note_counts : List ℕ
  midi_data : List (List ℕ)
  common_patterns : List String

/-- analyze_progression (lines 173-210). -/
def analyze_progression (progression : List (List ℕ)) : AnalysisResult :=
  let chord_names := convert_progression_to_chords progression
  let note_counts := progression.map List.length
  let avg_notes : ℚ :=
    if note_counts = [] then 0
    else (note_counts.sum : ℚ) / (note_counts.length : ℚ)
  let unique_chords := chord_names.dedup.length
  let complexity_score := min (py_int ((unique_chords : ℚ) * 1.5 + avg_notes)) 10
  { chord_count := progression.length
    unique_chords := unique_chords
    chord_names := chord_names
    complexity_score := complexity_score
    average_notes_per_chord := py_round1 avg_notes
    note_counts := note_counts
    midi_data := progression
    common_patterns := detect_patterns chord_names }

structure PageItem where
  id : ℕ
  raw_progression : List (List ℕ)
  chords : List String
  chord_count : ℕ
  complexity : ℤ
  patterns : List String

structure BrowseResult where
  progressions : List PageItem
  page : ℕ
  items_per_page : ℕ
  total_items : ℕ
  total_pages : ℕ
  has_next : Bool
  has_previous : Bool

/-- Filtering steps of browse_dataset (lines 216-229): the min_length filter
first, then the case-insensitive search over converted chord names. -/
def filtered_dataset (dataset : List (List (List ℕ))) (search_query : String)
    (min_length : ℕ) : List (List (List ℕ)) :=
  let filtered :=
    if 0 < min_length then dataset.filter (fun prog => min_length ≤ prog.length)
    else dataset
  if search_query ≠ "" then
    filtered.filter (fun prog =>
      (convert_progression_to_chords prog).any (fun chord =>
        py_contains (py_lower search_query) (py_lower chord)))
  else filtered

/-- browse_dataset (lines 212-258); page is 1-based. -/
def browse_dataset (dataset : List (List (List ℕ))) (page : ℕ)
    (items_per_page : ℕ) (search_query : String) (min_length : ℕ) :
    BrowseResult :=
  let filtered_data := filtered_dataset dataset search_query min_length
  let total_items := filtered_data.length
  let start_idx := (page - 1) * items_per_page
  let end_idx := start_idx + items_per_page
  let page_data := (filtered_data.drop start_idx).take items_per_page
  let progressions := page_data.enum.map (fun p =>
    let analysis := analyze_progression p.2
    { id := start_idx + p.1
      raw_progression := p.2
      chords := analysis.chord_names
      chord_count := analysis.chord_count
      complexity := analysis.complexity_score
      patterns := analysis.common_patterns : PageItem })
  { progressions := progressions
    page := page
    items_per_page := items_per_page
    total_items := total_items
    total_pages := (total_items + items_per_page - 1) / items_per_page
    has_next := decide (end_idx < total_items)
    has_previous := decide (1 < page) }

/-- random.choice modelled with an injected index r, following the spec's
dependency-injected random source design note. -/
def py_random_choice (l : List (List (List ℕ))) (r : ℕ) : List (List ℕ) :=
  l.getD (r % l.length) []

/-- generate_similar_progression (lines 260-270). -/
def generate_similar_progression (template_progression : List (List ℕ))
    (dataset : List (List (List ℕ))) (r : ℕ) : List (List ℕ) :=
  let template_length := template_progression.length
  let similar_length := dataset.filter (fun prog =>
    |(prog.length : ℤ) - (template_length : ℤ)| ≤ 2)
  if similar_length ≠ [] then py_random_choice similar_length r
  else py_random_choice dataset r

theorem py_sorted_length (l : List ℕ) : (py_sorted l).length = l.length :=
  (List.perm_insertionSort _ l).length_eq

theorem py_sorted_eq_of_perm {l₁ l₂ : List ℕ} (h : l₁.Perm l₂) :
    py_sorted l₁ = py_sorted l₂ :=
  List.eq_of_perm_of_sorted
    ((List.perm_insertionSort _ l₁).trans (h.trans (List.perm_insertionSort _ l₂).symm))
    (List.sorted_insertionSort _ l₁) (List.sorted_insertionSort _ l₂)

theorem py_sorted_map_add (l : List ℕ) (c : ℕ) :
    py_sorted (l.map (fun p => p + c)) = (py_sorted l).map (fun p => p + c) := by
  refine List.eq_of_perm_of_sorted ?_ (List.sorted_insertionSort _ _) ?_
  · exact (List.perm_insertionSort _ _).trans
      ((List.perm_insertionSort _ l).symm.map _)
  · exact List.Pairwise.map _ (fun a b hab => Nat.add_le_add_right hab c)
      (List.sorted_insertionSort _ l)

theorem root_name_add_twelve (a k : ℕ) :
    root_name_of (a + 12 * k) = root_name_of a := by
  unfold root_name_of
  rw [Nat.add_mul_mod_self_left]

theorem classify_big_add_twelve (a : ℕ) (rest : List ℕ) (k : ℕ) :
    classify_big (a + 12 * k) (rest.map (fun p => p + 12 * k)) =
      classify_big a rest := by
  have hmap : (rest.map (fun p => p + 12 * k)).map
      (fun note => (note - (a + 12 * k)) % 12) =
      rest.map (fun note => (note - a) % 12) := by
    rw [List.map_map]
    apply List.map_congr_left
    intro note _
    simp only [Function.comp_apply]
    rw [Nat.add_sub_add_right]
  unfold classify_big
  rw [hmap, root_name_add_twelve, List.length_map]

/-- C2 (amended): the classifier depends only on the multiset of input
pitches; it is invariant under any permutation of the input list. -/
theorem classify_perm_invariant {l₁ l₂ : List ℕ} (h : l₁.Perm l₂) :
    midi_notes_to_chord_name l₁ = midi_notes_to_chord_name l₂ := by
  by_cases h1 : l₁ = []
  · subst h1
    rw [h.symm.eq_nil]
  · have h2 : l₂ ≠ [] := fun e => h1 (by subst e; exact h.eq_nil)
    simp only [midi_notes_to_chord_name, if_neg h1, if_neg h2,
      py_sorted_eq_of_perm h]

/-- C2 witness: a reordering of the C major triad classifies identically. -/
theorem classify_perm_invariant_witness :
    midi_notes_to_chord_name [64, 60, 67] = midi_notes_to_chord_name [60, 64, 67] :=
  classify_perm_invariant (by decide)

/-- C2 counterexample: duplicates are not collapsed by the source, so the
two-element collection (60, 60) takes the two-note branch and classifies as
C2 while the single pitch 60 classifies as C. -/
theorem classify_duplicates_counterexample :
    midi_notes_to_chord_name [60, 60] = "C2" ∧
    midi_notes_to_chord_name [60] = "C" ∧
    midi_notes_to_chord_name [60, 60] ≠ midi_notes_to_chord_name [60] :=
  ⟨by decide, by decide, by decide⟩

/-- C10: transposing every pitch by the same multiple of 12 leaves the
classification result unchanged. -/
theorem classify_octave_invariant (l : List ℕ) (k : ℕ) :
    midi_notes_to_chord_name (l.map (fun p => p + 12 * k)) =
      midi_notes_to_chord_name l := by
  by_cases hl : l = []
  · subst hl; rfl
  · have hne : l.map (fun p => p + 12 * k) ≠ [] := by simp [hl]
    simp only [midi_notes_to_chord_name, if_neg hl, if_neg hne,
      py_sorted_map_add]
    cases hs : py_sorted l with
    | nil => rfl
    | cons a t =>
      cases t with
      | nil => simp [root_name_add_twelve]
      | cons b u =>
        cases u with
        | nil =>
          simp [List.getD, root_name_add_twelve, Nat.add_sub_add_right]
        | cons c v =>
          simp only [List.map_cons, List.headD_cons, List.length_cons,
            List.length_map, List.tail_cons]
          rw [if_neg (by omega), if_neg (by omega), if_neg (by omega),
            if_neg (by omega)]
          exact classify_big_add_twelve a (b :: c :: v) k

theorem classify_big_eq (root : ℕ) (rest : List ℕ) :
    classify_big root rest =
      (let intervals := py_sorted_set (rest.map (fun note => (note - root) % 12))
       let cn := add_extension intervals
         (add_seventh intervals (root_name_of root ++ quality_name intervals))
       if 5 < intervals.length then
         cn ++ "(" ++ toString (rest.length + 1) ++ ")"
       else cn) := rfl

theorem classify_three_le (t : List ℕ) (h3 : 3 ≤ t.length) :
    midi_notes_to_chord_name t =
      (if 5 < (chord_intervals t).length then
        chord_built_name t ++ "(" ++ toString t.length ++ ")"
      else chord_built_name t) := by
  have ht : t ≠ [] := by
    intro e
    rw [e] at h3
    simp at h3
  have hlen : (py_sorted t).length = t.length := py_sorted_length t
  have htail : (py_sorted t).tail.length + 1 = t.length := by
    rw [List.length_tail, hlen]
    omega
  simp only [midi_notes_to_chord_name, if_neg ht]
  rw [hlen, if_neg (by omega), if_neg (by omega), classify_big_eq]
  simp only []
  rw [htail]
  rfl

/-- C1 counterexample: the chromatic cluster 60..66 has 6 distinct interval
classes, yet the overflow guard returns the decorated name Cdim11(7), not
the bare root name C(7) that the claim demands. -/
theorem overflow_guard_counterexample :
    3 ≤ ([60, 61, 62, 63, 64, 65, 66] : List ℕ).length ∧
    5 < (chord_intervals [60, 61, 62, 63, 64, 65, 66]).length ∧
    midi_notes_to_chord_name [60, 61, 62, 63, 64, 65, 66] = "Cdim11(7)" ∧
    ("Cdim11(7)" : String) ≠
      chord_root_name [60, 61, 62, 63, 64, 65, 66] ++ "(" ++
        toString ([60, 61, 62, 63, 64, 65, 66] : List ℕ).length ++ ")" :=
  ⟨by decide, by decide, by decide, by decide⟩

/-- C1 (amended): when the interval set has more than 5 distinct interval
classes, classify returns the fully decorated chord name, built by the
quality, seventh and extension blocks, followed by the pitch count in
parentheses, rather than the bare root name. -/
theorem overflow_guard_amended (t : List ℕ) (h3 : 3 ≤ t.length)
    (hov : 5 < (chord_intervals t).length) :
    midi_notes_to_chord_name t =
      chord_built_name t ++ "(" ++ toString t.length ++ ")" := by
  rw [classify_three_le t h3, if_pos hov]

/-- C1 amended witness: the overflow fallback evaluated on the chromatic
cluster 60..66. -/
theorem overflow_guard_amended_witness :
    midi_notes_to_chord_name [60, 61, 62, 63, 64, 65, 66] =
      chord_built_name [60, 61, 62, 63, 64, 65, 66] ++ "(" ++
        toString ([60, 61, 62, 63, 64, 65, 66] : List ℕ).length ++ ")" :=
  overflow_guard_amended _ (by decide) (by decide)

theorem endswith_append (s t : String) : py_endswith (s ++ t) t = true := by
  unfold py_endswith
  rw [decide_eq_true_iff]
  show t.data <:+ s.data ++ t.data
  exact List.suffix_append _ _

theorem strip_bare_seven_maj7 (s : String) :
    strip_bare_seven (s ++ "maj7") = s ++ "maj7" := by
  unfold strip_bare_seven
  rw [endswith_append]
  simp

theorem add_seventh_of_maj7 {intervals : List ℕ} (h11 : 11 ∈ intervals)
    (s : String) : add_seventh intervals s = s ++ "maj7" := by
  unfold add_seventh
  rw [if_pos h11, ite_self]

/-- C3: with three or more notes and no overflow, a present major seventh
appends maj7 directly after the quality suffix whatever that quality is,
and otherwise a present minor seventh appends 7 before the extension step. -/
theorem seventh_resolution (t : List ℕ) (h3 : 3 ≤ t.length)
    (hov : (chord_intervals t).length ≤ 5) :
    (11 ∈ chord_intervals t →
      midi_notes_to_chord_name t =
        chord_root_name t ++ quality_name (chord_intervals t) ++ "maj7" ++
          (pick_extensions (chord_intervals t)).headD "")
  ∧ (11 ∉ chord_intervals t → 10 ∈ chord_intervals t →
      midi_notes_to_chord_name t =
        add_extension (chord_intervals t)
          (chord_root_name t ++ quality_name (chord_intervals t) ++ "7")) := by
  constructor
  · intro h11
    rw [classify_three_le t h3, if_neg (by omega)]
    unfold chord_built_name
    rw [add_seventh_of_maj7 h11]
    unfold add_extension
    by_cases hp : pick_extensions (chord_intervals t) = []
    · simp [hp]
    · rw [if_neg hp, strip_bare_seven_maj7]
  · intro h11 h10
    rw [classify_three_le t h3, if_neg (by omega)]
    unfold chord_built_name add_seventh
    rw [if_neg h11, if_pos h10]

/-- C3 witness: a minor triad with a major seventh yields the literal label
Cmmaj7, and a dominant-seventh set yields C7. -/
theorem seventh_resolution_witness :
    midi_notes_to_chord_name [60, 63, 67, 71] = "Cmmaj7" ∧
    midi_notes_to_chord_name [60, 64, 67, 70] = "C7" := by
  constructor
  · have h := (seventh_resolution [60, 63, 67, 71] (by decide) (by decide)).1
      (by decide)
    rw [h]; decide
  · have h := (seventh_resolution [60, 64, 67, 70] (by decide) (by decide)).2
      (by decide) (by decide)
    rw [h]; decide

/-- C4: with three or more notes and no overflow, at most one upper
extension is appended, the highest present among 13, 11, 9 in that priority
order, and the strip step removes a trailing bare 7 (never maj7) before the
digits are appended. -/
theorem extension_resolution (t : List ℕ) (h3 : 3 ≤ t.length)
    (hov : (chord_intervals t).length ≤ 5) :
    (9 ∈ chord_intervals t →
      midi_notes_to_chord_name t =
        strip_bare_seven (add_seventh (chord_intervals t)
          (chord_root_name t ++ quality_name (chord_intervals t))) ++ "13")
  ∧ (9 ∉ chord_intervals t → 5 ∈ chord_intervals t →
      midi_notes_to_chord_name t =
        strip_bare_seven (add_seventh (chord_intervals t)
          (chord_root_name t ++ quality_name (chord_intervals t))) ++ "11")
  ∧ (9 ∉ chord_intervals t → 5 ∉ chord_intervals t → 2 ∈ chord_intervals t →
      midi_notes_to_chord_name t =
        strip_bare_seven (add_seventh (chord_intervals t)
          (chord_root_name t ++ quality_name (chord_intervals t))) ++ "9")
  ∧ (9 ∉ chord_intervals t → 5 ∉ chord_intervals t → 2 ∉ chord_intervals t →
      midi_notes_to_chord_name t =
        add_seventh (chord_intervals t)
          (chord_root_name t ++ quality_name (chord_intervals t))) := by
  have hcl : midi_notes_to_chord_name t = chord_built_name t := by
    rw [classify_three_le t h3, if_neg (by omega)]
  refine ⟨fun h9 => ?_, fun h9 h5 => ?_, fun h9 h5 h2 => ?_, fun h9 h5 h2 => ?_⟩
  all_goals
    rw [hcl]
    unfold chord_built_name add_extension pick_extensions
    simp [h9]
  · simp [h5]
  · simp [h5, h2]
  · simp [h5, h2]

/-- C4 witness: a dominant ninth set strips the bare 7 before appending 9,
giving C9. -/
theorem extension_resolution_witness :
    midi_notes_to_chord_name [60, 64, 67, 70, 74] = "C9" := by
  have h := (extension_resolution [60, 64, 67, 70, 74] (by decide)
    (by decide)).2.2.1 (by decide) (by decide) (by decide)
  rw [h]; decide

/-- C5: the empty set is Rest, a single pitch is its bare pitch-class name,
and two distinct pitches append 5 for a perfect-fifth interval and the
generic 2 for every other interval. -/
theorem classify_small :
    midi_notes_to_chord_name [] = "Rest"
  ∧ (∀ p : ℕ, midi_notes_to_chord_name [p] = root_name_of p)
  ∧ (∀ a b : ℕ, a < b →
      midi_notes_to_chord_name [a, b] =
        root_name_of a ++ (if (b - a) % 12 = 7 then "5" else "2")) := by
  refine ⟨rfl, fun p => rfl, fun a b hab => ?_⟩
  have hs : py_sorted [a, b] = [a, b] := by
    simp [py_sorted, List.insertionSort, List.orderedInsert, hab.le]
  simp only [midi_notes_to_chord_name, hs]
  rw [if_neg (by simp), if_neg (by simp), if_pos (by simp)]
  simp only [List.getD, List.get?, Option.getD]
  by_cases h7 : (b - a) % 12 = 7
  · rw [if_pos h7, if_pos h7]; rfl
  · rw [if_neg h7, if_neg h7]; rfl

/-- C5 witness: pitch 60 alone is C, the fifth 60-67 is C5, and the
non-fifth pair 60-62 falls back to C2. -/
theorem classify_small_witness :
    midi_notes_to_chord_name [60] = "C" ∧
    midi_notes_to_chord_name [60, 67] = "C5" ∧
    midi_notes_to_chord_name [60, 62] = "C2" := by
  refine ⟨?_, ?_, ?_⟩
  · rw [classify_small.2.1 60]; decide
  · rw [classify_small.2.2 60 67 (by norm_num)]; decide
  · rw [classify_small.2.2 60 62 (by norm_num)]; decide

/-- C6: the complexity score equals min(floor(uniqueLabels * 1.5 +
averageNotes), 10) and is always an integer in [0, 10]. -/
theorem complexity_score_formula (progression : List (List ℕ)) :
    (analyze_progression progression).complexity_score =
      min ⌊((convert_progression_to_chords progression).dedup.length : ℚ) * 1.5 +
          (if progression = [] then 0
           else ((progression.map List.length).sum : ℚ) /
             ((progression.map List.length).length : ℚ))⌋ 10
  ∧ 0 ≤ (analyze_progression progression).complexity_score
  ∧ (analyze_progression progression).complexity_score ≤ 10 := by
  by_cases hp : progression = []
  · subst hp
    have h0 : py_int (0 : ℚ) = 0 := by norm_num [py_int]
    refine ⟨?_, ?_, ?_⟩ <;>
      norm_num [analyze_progression, convert_progression_to_chords, h0]
  · have hnc : progression.map List.length ≠ [] := by
      simpa using hp
    have havg : (0 : ℚ) ≤ ((progression.map List.length).sum : ℚ) /
        ((progression.map List.length).length : ℚ) := by positivity
    have harg : (0 : ℚ) ≤
        ((convert_progression_to_chords progression).dedup.length : ℚ) * 1.5 +
          ((progression.map List.length).sum : ℚ) /
            ((progression.map List.length).length : ℚ) := by positivity
    have hscore : (analyze_progression progression).complexity_score =
        min ⌊((convert_progression_to_chords progression).dedup.length : ℚ) * 1.5 +
            ((progression.map List.length).sum : ℚ) /
              ((progression.map List.length).length : ℚ)⌋ 10 := by
      simp only [analyze_progression, if_neg hnc]
      rw [py_int, if_pos harg]
    rw [hscore, if_neg hp]
    refine ⟨rfl, le_min (Int.floor_nonneg.mpr harg) (by norm_num), min_le_right _ _⟩

/-- C7: analyzing an empty progression yields average 0, chord count 0 and
an empty pattern list with no division fault, and the pattern list is
non-empty only when the progression has at least 4 events. -/
theorem analyze_degenerate :
    (analyze_progression []).average_notes_per_chord = 0
  ∧ (analyze_progression []).chord_count = 0
  ∧ (analyze_progression []).common_patterns = []
  ∧ (∀ progression : List (List ℕ),
      (analyze_progression progression).common_patterns ≠ [] →
        4 ≤ progression.length) := by
  refine ⟨by norm_num [analyze_progression, py_round1, round_half_even],
    rfl, rfl, fun prog h => ?_⟩
  by_contra h4
  apply h
  have hlen : (convert_progression_to_chords prog).length = prog.length :=
    List.length_map _ _
  simp only [analyze_progression]
  unfold detect_patterns
  rw [if_neg]
  rw [hlen]
  omega

/-- C7 witness: a four-event progression containing a minor chord has a
non-empty pattern list, so the theorem bounds its length from below. -/
theorem analyze_degenerate_witness :
    4 ≤ ([[60, 63, 67], [65], [67], [60]] : List (List ℕ)).length :=
  analyze_degenerate.2.2.2 _ (by decide)

theorem py_random_choice_mem {l : List (List (List ℕ))} (r : ℕ) (h : l ≠ []) :
    py_random_choice l r ∈ l := by
  unfold py_random_choice
  have hpos : 0 < l.length := List.length_pos.mpr h
  have hlt : r % l.length < l.length := Nat.mod_lt _ hpos
  rw [List.getD_eq_getElem _ _ hlt]
  exact List.getElem_mem hlt

/-- C9: when some progression in the collection has an event count within 2
of the template's, the generator returns a member of exactly that candidate
set, whose length lies within [L-2, L+2]; otherwise it falls back to a
member of the full collection. -/
theorem generate_similar_candidates (template : List (List ℕ))
    (dataset : List (List (List ℕ))) (r : ℕ) (hne : dataset ≠ []) :
    (dataset.filter (fun prog =>
        |(prog.length : ℤ) - (template.length : ℤ)| ≤ 2) ≠ [] →
      generate_similar_progression template dataset r ∈
        dataset.filter (fun prog =>
          |(prog.length : ℤ) - (template.length : ℤ)| ≤ 2) ∧
      (template.length : ℤ) - 2 ≤
        ((generate_similar_progression template dataset r).length : ℤ) ∧
      ((generate_similar_progression template dataset r).length : ℤ) ≤
        (template.length : ℤ) + 2)
  ∧ (dataset.filter (fun prog =>
        |(prog.length : ℤ) - (template.length : ℤ)| ≤ 2) = [] →
      generate_similar_progression template dataset r ∈ dataset) := by
  constructor
  · intro hsim
    have hgen : generate_similar_progression template dataset r =
        py_random_choice (dataset.filter (fun prog =>
          |(prog.length : ℤ) - (template.length : ℤ)| ≤ 2)) r := by
      unfold generate_similar_progression
      rw [if_pos hsim]
    have hmem := py_random_choice_mem r hsim
    rw [hgen]
    refine ⟨hmem, ?_, ?_⟩
    · have hb := abs_le.mp (of_decide_eq_true (List.mem_filter.mp hmem).2)
      omega
    · have hb := abs_le.mp (of_decide_eq_true (List.mem_filter.mp hmem).2)
      omega
  · intro hsim
    unfold generate_similar_progression
    rw [if_neg (fun hc => hc hsim)]
    exact py_random_choice_mem r hne

/-- C9 witness: a singleton collection whose only progression has length
within 2 of the template is returned as a candidate. -/
theorem generate_similar_candidates_witness :
    generate_similar_progression [[60]] [[[60, 64, 67]]] 0 ∈
      ([[[60, 64, 67]]] : List (List (List ℕ))).filter (fun prog =>
        |(prog.length : ℤ) - (([[60]] : List (List ℕ)).length : ℤ)| ≤ 2) :=
  ((generate_similar_candidates [[60]] [[[60, 64, 67]]] 0 (by decide)).1
    (by decide)).1

theorem join_chunks_take {α : Type} (l : List α) (ipp : ℕ) (n : ℕ) :
    ((List.range n).map (fun i => (l.drop (i * ipp)).take ipp)).flatten =
      l.take (n * ipp) := by
  induction n with
  | zero => simp
  | succ n ih =>
    rw [List.range_succ, List.map_append, List.flatten_append, ih]
    simp only [List.map_cons, List.map_nil, List.flatten_cons,
      List.flatten_nil, List.append_nil]
    rw [Nat.succ_mul, List.take_add]

theorem ceil_div_mul_ge (len ipp : ℕ) (h : 1 ≤ ipp) :
    len ≤ ((len + ipp - 1) / ipp) * ipp := by
  rcases Nat.eq_zero_or_pos len with h0 | hpos
  · simp [h0]
  · have h1 : len + ipp - 1 = (len - 1) + ipp := by omega
    rw [h1, Nat.add_div_right _ h]
    have h4 : len - 1 < ((len - 1) / ipp + 1) * ipp := by
      have h2 := Nat.div_add_mod (len - 1) ipp
      have h3 : (len - 1) % ipp < ipp := Nat.mod_lt _ h
      calc len - 1 = ipp * ((len - 1) / ipp) + (len - 1) % ipp := h2.symm
        _ < ipp * ((len - 1) / ipp) + ipp := Nat.add_lt_add_left h3 _
        _ = ((len - 1) / ipp + 1) * ipp := by ring
    omega

theorem total_pages_eq_ceil (len ipp : ℕ) (h : 1 ≤ ipp) :
    (((len + ipp - 1) / ipp : ℕ) : ℤ) = ⌈(len : ℚ) / (ipp : ℚ)⌉ := by
  have hipp : (0 : ℚ) < (ipp : ℚ) := by exact_mod_cast h
  symm
  rw [Int.ceil_eq_iff]
  constructor
  · rw [lt_div_iff₀ hipp]
    have hnat : ((len + ipp - 1) / ipp) * ipp ≤ len + ipp - 1 :=
      Nat.div_mul_le_self _ _
    have hnat2 : ((len + ipp - 1) / ipp) * ipp + 1 ≤ len + ipp := by omega
    have hcast : (((len + ipp - 1) / ipp : ℕ) : ℚ) * (ipp : ℚ) + 1 ≤
        (len : ℚ) + (ipp : ℚ) := by exact_mod_cast hnat2
    simp only [Int.cast_natCast]
    linarith
  · rw [div_le_iff₀ hipp]
    exact_mod_cast ceil_div_mul_ge len ipp h

theorem browse_page_raw (dataset : List (List (List ℕ))) (q : String)
    (m ipp page : ℕ) :
    ((browse_dataset dataset page ipp q m).progressions).map
        (fun it => it.raw_progression) =
      ((filtered_dataset dataset q m).drop ((page - 1) * ipp)).take ipp := by
  simp only [browse_dataset, List.map_map]
  exact List.enum_map_snd _

/-- C8: concatenating the page slices for pages 1, 2, ... up to total_pages
reproduces the filtered sequence in order; total_pages is the ceiling of
total_items / items_per_page; and a page beyond the end is empty. -/
theorem browse_pagination_roundtrip (dataset : List (List (List ℕ)))
    (q : String) (m ipp : ℕ) (h : 1 ≤ ipp) :
    (((List.range ((browse_dataset dataset 1 ipp q m).total_pages)).map
        (fun i => ((browse_dataset dataset (i + 1) ipp q m).progressions).map
          (fun it => it.raw_progression))).flatten =
      filtered_dataset dataset q m)
  ∧ (∀ page : ℕ, ((browse_dataset dataset page ipp q m).total_pages : ℤ) =
      ⌈((filtered_dataset dataset q m).length : ℚ) / (ipp : ℚ)⌉)
  ∧ (∀ page : ℕ, (browse_dataset dataset page ipp q m).total_pages < page →
      (browse_dataset dataset page ipp q m).progressions = []) := by
  have htp : ∀ page : ℕ, (browse_dataset dataset page ipp q m).total_pages =
      ((filtered_dataset dataset q m).length + ipp - 1) / ipp := fun _ => rfl
  refine ⟨?_, ?_, ?_⟩
  · simp only [browse_page_raw, Nat.add_sub_cancel, htp]
    rw [join_chunks_take]
    exact List.take_of_length_le (ceil_div_mul_ge _ _ h)
  · intro page
    rw [htp]
    exact total_pages_eq_ceil _ _ h
  · intro page hpage
    rw [htp] at hpage
    have hstart : (filtered_dataset dataset q m).length ≤ (page - 1) * ipp := by
      have h1 : ((filtered_dataset dataset q m).length + ipp - 1) / ipp ≤
          page - 1 := by omega
      calc (filtered_dataset dataset q m).length
          ≤ (((filtered_dataset dataset q m).length + ipp - 1) / ipp) * ipp :=
            ceil_div_mul_ge _ _ h
        _ ≤ (page - 1) * ipp := Nat.mul_le_mul_right _ h1
    have hdrop : (filtered_dataset dataset q m).drop ((page - 1) * ipp) = [] :=
      List.drop_eq_nil_iff.mpr hstart
    simp [browse_dataset, hdrop]

/-- C8 witness: a three-progression collection with two items per page has
ceiling total pages 2, and page 3 is empty rather than an error. -/
theorem browse_pagination_roundtrip_witness :
    (((browse_dataset [[[60]], [[60], [62]], [[64]]] 1 2 "" 0).total_pages : ℤ) =
      ⌈((filtered_dataset [[[60]], [[60], [62]], [[64]]] "" 0).length : ℚ) /
        ((2 : ℕ) : ℚ)⌉)
  ∧ (browse_dataset [[[60]], [[60], [62]], [[64]]] 3 2 "" 0).progressions = [] :=
  ⟨(browse_pagination_roundtrip [[[60]], [[60], [62]], [[64]]] "" 0 2
      (by norm_num)).2.1 1,
   (browse_pagination_roundtrip [[[60]], [[60], [62]], [[64]]] "" 0 2
      (by norm_num)).2.2 3 (by decide)⟩

